/-
Verification of the behavior-engine core of the ECE-5725 social-robot code
(modules/recognition_handler.py, modules/search_controller.py,
modules/action_recorder.py, config.py) against its specification.

Shallow embedding conventions:
* machine time (`time.time()`) is passed explicitly as a rational `now`;
* Python floats are modelled as exact rationals `ℚ`;
* Python counters guarded by `> 0` checks are modelled as `Nat`;
* fallible list indexing is modelled with `Option`.
-/
import Mathlib

/-! ### config.py constants (only those the claims mention) -/

def EMOTION_CONFIRM_COUNT : Nat := 3
def NO_FACE_RESET_COUNT : Nat := 30
def SEARCH_CYCLES : Nat := 4
def SEARCH_45DEG_DURATION : ℚ := 1.5
def ROTATE_STEP_DURATION : ℚ := 0.15
def ROTATE_STEP_PAUSE : ℚ := 0.08
def CAMERA_WIDTH : ℚ := 640
def FACE_CENTER_TOLERANCE : ℚ := 0.16

/-! ### modules/recognition_handler.py

The Python class keeps a dict `recognition_counters` whose keys are exactly
"familiar" and "stranger" (fixed in `__init__`, never extended), so the dict
is embedded as two `Nat` fields.  `update_counter` iterates over the keys and
compares each key against the argument label. -/

structure RecognitionHandler where
  familiar : Nat
  stranger : Nat
  recognition_active_label : Option String
  no_face_count : Nat
  is_registering : Bool
  register_name : String
  register_count : Nat
deriving Repr, DecidableEq

def RecognitionHandler.init : RecognitionHandler :=
  { familiar := 0, stranger := 0, recognition_active_label := none,
    no_face_count := 0, is_registering := false, register_name := "",
    register_count := 0 }

def update_counter (label : String) (s : RecognitionHandler) : RecognitionHandler :=
  { s with
    familiar :=
      if "familiar" = label then min EMOTION_CONFIRM_COUNT (s.familiar + 1)
      else if s.familiar > 0 then s.familiar - 1 else s.familiar,
    stranger :=
      if "stranger" = label then min EMOTION_CONFIRM_COUNT (s.stranger + 1)
      else if s.stranger > 0 then s.stranger - 1 else s.stranger }

def reset_counters (s : RecognitionHandler) : RecognitionHandler :=
  { s with familiar := 0, stranger := 0 }

def decay_counters (s : RecognitionHandler) : RecognitionHandler :=
  { s with
    familiar := if s.familiar > 0 then s.familiar - 1 else s.familiar,
    stranger := if s.stranger > 0 then s.stranger - 1 else s.stranger }

def get_count (label : String) (s : RecognitionHandler) : Nat :=
  if label = "familiar" then s.familiar
  else if label = "stranger" then s.stranger
  else 0

def is_confirmed (label : String) (s : RecognitionHandler) : Bool :=
  get_count label s ≥ EMOTION_CONFIRM_COUNT

def on_face_lost (s : RecognitionHandler) : Bool × RecognitionHandler :=
  let s1 := decay_counters { s with no_face_count := s.no_face_count + 1 }
  if s1.no_face_count ≥ NO_FACE_RESET_COUNT then
    (true, { (reset_counters { s1 with recognition_active_label := none }) with
             no_face_count := 0 })
  else
    (false, s1)

def on_face_detected (s : RecognitionHandler) : RecognitionHandler :=
  { s with no_face_count := 0 }

def set_active_label (label : Option String) (s : RecognitionHandler) :
    RecognitionHandler :=
  { s with recognition_active_label := label }

def cancel_registration (s : RecognitionHandler) : RecognitionHandler :=
  { s with is_registering := false, register_name := "", register_count := 0 }

/-- `start_registration` with an explicit name (the `name=None` default derives
a name from the clock, passed here as the resolved string). -/
def start_registration (name : String) (s : RecognitionHandler) :
    RecognitionHandler :=
  { s with is_registering := true, register_name := name, register_count := 0 }

/-- One mutating step of the RecognitionHandler interface. -/
inductive RecognitionHandler.Step :
    RecognitionHandler → RecognitionHandler → Prop where
  | update (label : String) (s : RecognitionHandler) :
      Step s (update_counter label s)
  | reset (s : RecognitionHandler) : Step s (reset_counters s)
  | decay (s : RecognitionHandler) : Step s (decay_counters s)
  | faceLost (s : RecognitionHandler) : Step s (on_face_lost s).2
  | faceDetected (s : RecognitionHandler) : Step s (on_face_detected s)
  | setLabel (label : Option String) (s : RecognitionHandler) :
      Step s (set_active_label label s)
  | startReg (name : String) (s : RecognitionHandler) :
      Step s (start_registration name s)
  | cancelReg (s : RecognitionHandler) : Step s (cancel_registration s)

/-- States reachable from the freshly constructed handler. -/
inductive RecognitionHandler.Reachable : RecognitionHandler → Prop where
  | init : Reachable RecognitionHandler.init
  | step {s s' : RecognitionHandler} :
      Reachable s → RecognitionHandler.Step s s' → Reachable s'

/-- Iterated `on_face_lost` (state component only). -/
def on_face_lost_iter : Nat → RecognitionHandler → RecognitionHandler
  | 0, s => s
  | n + 1, s => on_face_lost_iter n (on_face_lost s).2

/-! #### Lemmas shared by the recognition-handler claims -/

lemma update_counter_familiar_familiar (s : RecognitionHandler) :
    (update_counter "familiar" s).familiar =
      min EMOTION_CONFIRM_COUNT (s.familiar + 1) := by
  simp [update_counter]

lemma update_counter_familiar_stranger (s : RecognitionHandler) :
    (update_counter "familiar" s).stranger =
      if s.stranger > 0 then s.stranger - 1 else s.stranger := by
  simp [update_counter]

lemma on_face_lost_iter_no_reset (i : Nat) (s : RecognitionHandler)
    (h : s.no_face_count + i ≤ 29) :
    (on_face_lost_iter i s).no_face_count = s.no_face_count + i ∧
    (on_face_lost_iter i s).recognition_active_label =
      s.recognition_active_label ∧
    ∀ j, j < i → (on_face_lost (on_face_lost_iter j s)).1 = false := by
  induction i generalizing s with
  | zero => simp [on_face_lost_iter]
  | succ n ih =>
    have hlt : s.no_face_count + 1 < NO_FACE_RESET_COUNT := by
      simp only [NO_FACE_RESET_COUNT]; omega
    have hfst : (on_face_lost s).1 = false := by
      simp [on_face_lost, decay_counters, Nat.not_le_of_lt hlt]
    have hsnd_count : (on_face_lost s).2.no_face_count = s.no_face_count + 1 := by
      simp [on_face_lost, decay_counters, Nat.not_le_of_lt hlt]
    have hsnd_label : (on_face_lost s).2.recognition_active_label =
        s.recognition_active_label := by
      simp [on_face_lost, decay_counters, Nat.not_le_of_lt hlt]
    have hrec := ih (on_face_lost s).2 (by omega)
    refine ⟨?_, ?_, ?_⟩
    · simp only [on_face_lost_iter]
      rw [hrec.1, hsnd_count]
      omega
    · simp only [on_face_lost_iter]
      rw [hrec.2.1, hsnd_label]
    · intro j hj
      cases j with
      | zero => simpa [on_face_lost_iter] using hfst
      | succ m =>
        have := hrec.2.2 m (by omega)
        simpa [on_face_lost_iter] using this

lemma on_face_lost_resets (t : RecognitionHandler)
    (h : NO_FACE_RESET_COUNT ≤ t.no_face_count + 1) :
    (on_face_lost t).1 = true ∧
    (on_face_lost t).2.recognition_active_label = none ∧
    (on_face_lost t).2.familiar = 0 ∧
    (on_face_lost t).2.stranger = 0 ∧
    (on_face_lost t).2.no_face_count = 0 := by
  refine ⟨?_, ?_, ?_, ?_, ?_⟩ <;>
    simp [on_face_lost, decay_counters, reset_counters, h]

/-- Sample handler state used by witnesses. -/
def sampleHandler : RecognitionHandler :=
  { RecognitionHandler.init with
    recognition_active_label := some "alice", familiar := 2, stranger := 1 }

/-- C5: starting from any state with both counters in [0, EMOTION_CONFIRM_COUNT],
three (= EMOTION_CONFIRM_COUNT) consecutive `update_counter "familiar"` calls
confirm "familiar" and leave "stranger" unconfirmed, because each call
saturating-increments the named counter and decrements the other toward 0. -/
theorem C5_familiar_confirmation (s : RecognitionHandler)
    (hf : s.familiar ≤ EMOTION_CONFIRM_COUNT)
    (hs : s.stranger ≤ EMOTION_CONFIRM_COUNT) :
    is_confirmed "familiar"
      (update_counter "familiar" (update_counter "familiar"
        (update_counter "familiar" s))) = true ∧
    is_confirmed "stranger"
      (update_counter "familiar" (update_counter "familiar"
        (update_counter "familiar" s))) = false := by
  simp only [EMOTION_CONFIRM_COUNT] at hf hs
  simp [is_confirmed, get_count, update_counter_familiar_familiar,
    update_counter_familiar_stranger, EMOTION_CONFIRM_COUNT]
  split_ifs <;> omega

theorem C5_familiar_confirmation_witness :
    sampleHandler.familiar ≤ EMOTION_CONFIRM_COUNT ∧
    sampleHandler.stranger ≤ EMOTION_CONFIRM_COUNT ∧
    (is_confirmed "familiar"
      (update_counter "familiar" (update_counter "familiar"
        (update_counter "familiar" sampleHandler))) = true ∧
     is_confirmed "stranger"
      (update_counter "familiar" (update_counter "familiar"
        (update_counter "familiar" sampleHandler))) = false) :=
  ⟨by decide, by decide,
   C5_familiar_confirmation sampleHandler (by decide) (by decide)⟩

/-- C6: in every reachable RecognitionHandler state both recognition counters
stay in [0, EMOTION_CONFIRM_COUNT]; the lower bound is enforced by the `Nat`
embedding (every decrement in the source is guarded by `> 0`), and every
operation preserves the upper bound. -/
theorem C6_counter_bounds (s : RecognitionHandler)
    (h : RecognitionHandler.Reachable s) :
    s.familiar ≤ EMOTION_CONFIRM_COUNT ∧ s.stranger ≤ EMOTION_CONFIRM_COUNT := by
  induction h with
  | init => decide
  | step _ hstep ih =>
    obtain ⟨h1, h2⟩ := ih
    cases hstep with
    | update label s =>
      constructor <;>
        (simp only [update_counter, EMOTION_CONFIRM_COUNT] at * <;>
          split_ifs <;> omega)
    | reset s => simp [reset_counters]
    | decay s =>
      constructor <;>
        (simp only [decay_counters, EMOTION_CONFIRM_COUNT] at * <;>
          split_ifs <;> omega)
    | faceLost s =>
      simp only [on_face_lost, decay_counters, reset_counters,
        EMOTION_CONFIRM_COUNT] at *
      split_ifs <;> simp_all <;> omega
    | faceDetected s => exact ⟨h1, h2⟩
    | setLabel label s => exact ⟨h1, h2⟩
    | startReg name s => exact ⟨h1, h2⟩
    | cancelReg s => exact ⟨h1, h2⟩

theorem C6_counter_bounds_witness :
    RecognitionHandler.Reachable
      (update_counter "familiar" RecognitionHandler.init) ∧
    ((update_counter "familiar" RecognitionHandler.init).familiar ≤
        EMOTION_CONFIRM_COUNT ∧
     (update_counter "familiar" RecognitionHandler.init).stranger ≤
        EMOTION_CONFIRM_COUNT) :=
  ⟨RecognitionHandler.Reachable.step RecognitionHandler.Reachable.init
      (RecognitionHandler.Step.update "familiar" RecognitionHandler.init),
   C6_counter_bounds _
     (RecognitionHandler.Reachable.step RecognitionHandler.Reachable.init
       (RecognitionHandler.Step.update "familiar" RecognitionHandler.init))⟩

/-- C7: with NO_FACE_RESET_COUNT = 30 and the no-face counter at 0, each of
the first 29 `on_face_lost` calls returns false and leaves the active label
untouched; the 30th returns true, clears the active label, zeroes both
recognition counters, and resets the no-face counter; `on_face_detected`
resets only the no-face counter. -/
theorem C7_no_face_reset (s : RecognitionHandler) (h0 : s.no_face_count = 0) :
    (∀ i, 1 ≤ i → i ≤ 29 →
      (on_face_lost (on_face_lost_iter (i - 1) s)).1 = false ∧
      (on_face_lost_iter i s).recognition_active_label =
        s.recognition_active_label) ∧
    ((on_face_lost (on_face_lost_iter 29 s)).1 = true ∧
     (on_face_lost (on_face_lost_iter 29 s)).2.recognition_active_label = none ∧
     (on_face_lost (on_face_lost_iter 29 s)).2.familiar = 0 ∧
     (on_face_lost (on_face_lost_iter 29 s)).2.stranger = 0 ∧
     (on_face_lost (on_face_lost_iter 29 s)).2.no_face_count = 0) ∧
    (∀ t : RecognitionHandler,
      on_face_detected t = { t with no_face_count := 0 }) := by
  have h29 := on_face_lost_iter_no_reset 29 s (by omega)
  refine ⟨?_, ?_, fun t => rfl⟩
  · intro i h1 h2
    refine ⟨h29.2.2 (i - 1) (by omega), ?_⟩
    exact (on_face_lost_iter_no_reset i s (by omega)).2.1
  · have hcount : (on_face_lost_iter 29 s).no_face_count = 29 := by
      rw [h29.1, h0]
    exact on_face_lost_resets (on_face_lost_iter 29 s)
      (by rw [hcount]; decide)

theorem C7_no_face_reset_witness :
    sampleHandler.no_face_count = 0 ∧
    (1 ≤ 7 ∧ 7 ≤ 29) ∧
    ((on_face_lost (on_face_lost_iter 6 sampleHandler)).1 = false ∧
     (on_face_lost_iter 7 sampleHandler).recognition_active_label =
       some "alice") ∧
    (on_face_lost (on_face_lost_iter 29 sampleHandler)).1 = true := by
  have h := C7_no_face_reset sampleHandler rfl
  have h7 := h.1 7 (by decide) (by decide)
  exact ⟨rfl, ⟨by decide, by decide⟩, ⟨h7.1, h7.2.trans rfl⟩, h.2.1.1⟩

/-- C10: for a label outside {"familiar", "stranger"} the interface is total:
`update_counter` behaves exactly like `decay_counters` (no counter is
incremented, every positive one is decremented), `get_count` returns 0 and
`is_confirmed` returns false. -/
theorem C10_unknown_label_total (label : String)
    (hf : label ≠ "familiar") (hs : label ≠ "stranger")
    (s : RecognitionHandler) :
    update_counter label s = decay_counters s ∧
    get_count label s = 0 ∧
    is_confirmed label s = false := by
  refine ⟨?_, ?_, ?_⟩
  · simp [update_counter, decay_counters, Ne.symm hf, Ne.symm hs]
  · simp [get_count, hf, hs]
  · simp [is_confirmed, get_count, hf, hs, EMOTION_CONFIRM_COUNT]

theorem C10_unknown_label_total_witness :
    ("curious" : String) ≠ "familiar" ∧
    ("curious" : String) ≠ "stranger" ∧
    (update_counter "curious" sampleHandler = decay_counters sampleHandler ∧
     get_count "curious" sampleHandler = 0 ∧
     is_confirmed "curious" sampleHandler = false) :=
  ⟨by decide, by decide,
   C10_unknown_label_total "curious" (by decide) (by decide) sampleHandler⟩

/-! ### modules/search_controller.py

The sweep state machine.  `get_next_search_action` returns the scripted
action and nominal duration (the log message is omitted); `advance_step`
is its sole mutator. -/

def SEARCH_ROTATE_PAUSE : ℚ := 0.5

structure SearchController where
  search_step : Nat
  search_cycle : Nat
  last_rotation_time : ℚ
  face_found_in_search : Bool
deriving Repr, DecidableEq

def SearchController.reset : SearchController :=
  { search_step := 0, search_cycle := 0, last_rotation_time := 0,
    face_found_in_search := false }

structure SearchAction where
  action : String
  duration : ℚ
deriving Repr, DecidableEq

def get_next_search_action (s : SearchController) : SearchAction :=
  if s.search_step = 0 then
    { action := "rotate_left", duration := SEARCH_45DEG_DURATION }
  else if s.search_step = 1 then
    { action := "rotate_right", duration := SEARCH_45DEG_DURATION * 2 }
  else if s.search_step = 2 then
    { action := "rotate_left", duration := SEARCH_45DEG_DURATION * 2 }
  else if s.search_step = 3 then
    { action := "rotate_right", duration := SEARCH_45DEG_DURATION }
  else
    { action := "complete", duration := 0 }

def advance_step (s : SearchController) : SearchController :=
  if s.search_step = 0 then { s with search_step := 1 }
  else if s.search_step = 1 then { s with search_step := 2 }
  else if s.search_step = 2 then
    let cycle := s.search_cycle + 1
    if cycle ≥ SEARCH_CYCLES then { s with search_cycle := cycle, search_step := 3 }
    else { s with search_cycle := cycle, search_step := 1 }
  else if s.search_step = 3 then { s with search_step := 4 }
  else s

def is_search_complete (s : SearchController) : Bool :=
  s.search_step > 3

def is_in_rotation_pause (now : ℚ) (s : SearchController) : Bool :=
  now - s.last_rotation_time < SEARCH_ROTATE_PAUSE

def update_rotation_time (now : ℚ) (s : SearchController) : SearchController :=
  { s with last_rotation_time := now }

def on_face_found (s : SearchController) : SearchController :=
  { s with face_found_in_search := true }

/-- The scripted actions seen when interleaving `get_next_search_action`
with `n` calls to `advance_step` (the action is polled before every advance
and once more at the end). -/
def searchActionTrace : Nat → SearchController → List String
  | 0, s => [(get_next_search_action s).action]
  | n + 1, s =>
      (get_next_search_action s).action :: searchActionTrace n (advance_step s)

/-- C4: with SEARCH_CYCLES = 4 the sweep from `reset` is: step 0 rotate_left,
then the pair [rotate_right, rotate_left] four times, then rotate_right, then
"complete"; exactly 10 `advance_step` calls reach the terminal complete state
(9 do not). -/
theorem C4_sweep_sequence :
    searchActionTrace 10 SearchController.reset =
      ["rotate_left",
       "rotate_right", "rotate_left",
       "rotate_right", "rotate_left",
       "rotate_right", "rotate_left",
       "rotate_right", "rotate_left",
       "rotate_right", "complete"] ∧
    is_search_complete (advance_step^[10] SearchController.reset) = true ∧
    is_search_complete (advance_step^[9] SearchController.reset) = false := by
  refine ⟨rfl, rfl, rfl⟩

/-! ### center_face (modules/search_controller.py, lines 177-197)

`center_face` computes `center_x = CAMERA_WIDTH / 2`,
`tolerance = CAMERA_WIDTH * FACE_CENTER_TOLERANCE` and judges the face
centered when `abs(face_center_x - center_x) <= tolerance`. -/

def center_face_center_x : ℚ := CAMERA_WIDTH / 2

def center_face_tolerance : ℚ := CAMERA_WIDTH * FACE_CENTER_TOLERANCE

/-- The face-centered check performed by `center_face`. -/
def center_face_is_centered (face_center_x : ℚ) : Bool :=
  |face_center_x - center_face_center_x| ≤ center_face_tolerance

/-- C8 counterexample: the code's tolerance is 640·0.16 = 102.4 px, not the
claimed 102.24 px; at `face_center_x = 422.3` the code judges the face
centered although |422.3 − 320| = 102.3 > 102.24. -/
theorem C8_counterexample :
    center_face_is_centered 422.3 = true ∧
    ¬ ((|(422.3 : ℚ) - 320|) ≤ 102.24) := by
  constructor
  · simp only [center_face_is_centered, center_face_center_x,
      center_face_tolerance, CAMERA_WIDTH, FACE_CENTER_TOLERANCE,
      decide_eq_true_eq, abs_le]
    constructor <;> norm_num
  · rw [not_le, lt_abs]
    left
    norm_num

/-- C8 (amended): with frame width 640 px and tolerance ratio 0.16, the
centering check in `center_face` holds iff |face_center_x − 320| ≤ 102.4 px. -/
theorem C8_centering_tolerance (x : ℚ) :
    center_face_is_centered x = true ↔ |x - 320| ≤ 102.4 := by
  simp only [center_face_is_centered, center_face_center_x,
    center_face_tolerance, CAMERA_WIDTH, FACE_CENTER_TOLERANCE,
    decide_eq_true_eq]
  norm_num

/-! ### modules/action_recorder.py

Every place the source calls `time.time()` takes an explicit `now : ℚ`
argument.  A history entry mirrors the dict appended by the source. -/

structure RobotAction where
  type : String
  direction : String
  duration : ℚ
  timestamp : ℚ
deriving Repr, DecidableEq

structure ActionRecorder where
  action_history : List RobotAction
  is_returning : Bool
  return_action_index : Int
  current_action : Option (String × String)
  action_start_time : ℚ
deriving Repr, DecidableEq

def ActionRecorder.init : ActionRecorder :=
  { action_history := [], is_returning := false, return_action_index := 0,
    current_action := none, action_start_time := 0 }

def finish_current_action (now : ℚ) (s : ActionRecorder) : ActionRecorder :=
  match s.current_action with
  | none => s
  | some (t, d) =>
    let duration := now - s.action_start_time
    let s1 :=
      if duration ≥ 0.05 then
        { s with action_history := s.action_history ++
            [{ type := t, direction := d, duration := duration,
               timestamp := now }] }
      else s
    { s1 with current_action := none, action_start_time := 0 }

def start_action (now : ℚ) (action_type direction : String)
    (s : ActionRecorder) : ActionRecorder :=
  if s.is_returning then s
  else
    let s1 := finish_current_action now s
    { s1 with current_action := some (action_type, direction),
              action_start_time := now }

def stop_action (now : ℚ) (s : ActionRecorder) : ActionRecorder :=
  finish_current_action now s

def record (now : ℚ) (action_type direction : String) (duration : ℚ)
    (s : ActionRecorder) : ActionRecorder :=
  if s.is_returning then s
  else if duration < 0.05 then s
  else
    { s with action_history := s.action_history ++
        [{ type := action_type, direction := direction, duration := duration,
           timestamp := now }] }

def ActionRecorder.clear (s : ActionRecorder) : ActionRecorder :=
  { s with action_history := [], current_action := none,
           action_start_time := 0 }

def has_actions (s : ActionRecorder) : Bool :=
  s.action_history.length > 0

def get_action_count (s : ActionRecorder) : Nat :=
  s.action_history.length

def get_reverse_direction (direction : String) : String :=
  if direction = "left" then "right"
  else if direction = "right" then "left"
  else if direction = "forward" then "backward"
  else if direction = "backward" then "forward"
  else direction

def start_returning (now : ℚ) (s : ActionRecorder) : Bool × ActionRecorder :=
  let s1 := stop_action now s
  if ¬ has_actions s1 then (false, s1)
  else
    (true, { s1 with is_returning := true
                   , return_action_index :=
                       (s1.action_history.length : Int) - 1 })

structure ReturnAction where
  type : String
  direction : String
  original_direction : String
  duration : ℚ
  index : Int
  total : Nat
deriving Repr, DecidableEq

/-- `get_next_return_action`; the source indexes `action_history` directly
(raising on an out-of-range index, which the replay protocol never produces),
so the lookup is embedded with `Option`. -/
def get_next_return_action (s : ActionRecorder) : Option ReturnAction :=
  if s.return_action_index < 0 then none
  else
    match s.action_history[s.return_action_index.toNat]? with
    | none => none
    | some a =>
      some { type := a.type,
             direction := get_reverse_direction a.direction,
             original_direction := a.direction,
             duration := a.duration,
             index := s.return_action_index,
             total := s.action_history.length }

def advance_return_index (s : ActionRecorder) : ActionRecorder :=
  { s with return_action_index := s.return_action_index - 1 }

def is_return_complete (s : ActionRecorder) : Bool :=
  s.return_action_index < 0

def finish_returning (s : ActionRecorder) : ActionRecorder :=
  ActionRecorder.clear { s with is_returning := false }

/-- The motor commands issued on the main thread while physically replaying
one return action (`execute_return_action`, motor enabled). -/
inductive MotorEvent where
  | turnLeft (duration : ℚ)
  | turnRight (duration : ℚ)
  | motorPause (duration : ℚ)
  | forwardCmd (duration : ℚ)
  | backwardCmd (duration : ℚ)
deriving Repr, DecidableEq

/-- The motor-event trace of the replay branch of `execute_return_action`:
`total_steps = int(duration / step_duration)` (recorded durations are
nonnegative, so Python truncation is the floor), each step a rotation pulse
of `step_duration` followed by a pause of `pause_duration`; a move is one
continuous command held for the full duration. -/
def execute_return_motor_events (ra : ReturnAction) : List MotorEvent :=
  if ra.type = "rotate" then
    let step_duration := ROTATE_STEP_DURATION
    let pause_duration := ROTATE_STEP_PAUSE
    let total_steps := (Int.floor (ra.duration / step_duration)).toNat
    (List.range total_steps).flatMap (fun _ =>
      [(if ra.direction = "left" then MotorEvent.turnLeft step_duration
        else MotorEvent.turnRight step_duration),
       MotorEvent.motorPause pause_duration])
  else if ra.type = "move" then
    [if ra.direction = "forward" then MotorEvent.forwardCmd ra.duration
     else MotorEvent.backwardCmd ra.duration]
  else []

/-- One call to `execute_return_action`: returns the new recorder state, the
"return complete" flag, and the motor events issued. -/
def execute_return_action (s : ActionRecorder) :
    ActionRecorder × Bool × List MotorEvent :=
  match get_next_return_action s with
  | none => (finish_returning s, true, [])
  | some ra => (advance_return_index s, false, execute_return_motor_events ra)

/-- Repeatedly calling `execute_return_action` until it reports completion
(bounded by fuel), collecting the replayed return actions in order. -/
def run_return : Nat → ActionRecorder → List ReturnAction × ActionRecorder × Bool
  | 0, s => ([], s, false)
  | fuel + 1, s =>
    match get_next_return_action s with
    | none => ([], finish_returning s, true)
    | some ra =>
      let rest := run_return fuel (advance_return_index s)
      (ra :: rest.1, rest.2)

/-- One mutating step of the ActionRecorder interface, with the clock value
for the step chosen arbitrarily. -/
inductive ActionRecorder.Step : ActionRecorder → ActionRecorder → Prop where
  | start (now : ℚ) (action_type direction : String) (s : ActionRecorder) :
      Step s (start_action now action_type direction s)
  | stop (now : ℚ) (s : ActionRecorder) : Step s (stop_action now s)
  | recordStep (now : ℚ) (action_type direction : String) (duration : ℚ)
      (s : ActionRecorder) : Step s (record now action_type direction duration s)
  | clearStep (s : ActionRecorder) : Step s (ActionRecorder.clear s)
  | startRet (now : ℚ) (s : ActionRecorder) : Step s (start_returning now s).2
  | execRet (s : ActionRecorder) : Step s (execute_return_action s).1
  | advanceIdx (s : ActionRecorder) : Step s (advance_return_index s)
  | finishRet (s : ActionRecorder) : Step s (finish_returning s)

/-- Recorder states reachable from the freshly constructed recorder. -/
inductive ActionRecorder.Reachable : ActionRecorder → Prop where
  | init : Reachable ActionRecorder.init
  | step {s s' : ActionRecorder} :
      Reachable s → ActionRecorder.Step s s' → Reachable s'

lemma finish_current_action_durations (now : ℚ) (s : ActionRecorder)
    (h : ∀ a ∈ s.action_history, (0.05 : ℚ) ≤ a.duration) :
    ∀ a ∈ (finish_current_action now s).action_history,
      (0.05 : ℚ) ≤ a.duration := by
  intro a ha
  rcases hc : s.current_action with _ | ⟨t, d⟩
  · simp only [finish_current_action, hc] at ha
    exact h a ha
  · simp only [finish_current_action, hc] at ha
    split_ifs at ha with hd
    · simp only [List.mem_append, List.mem_singleton] at ha
      rcases ha with ha | rfl
      · exact h a ha
      · exact hd
    · exact h a ha

lemma finish_current_action_history_length (now : ℚ) (s : ActionRecorder)
    (hshort : now - s.action_start_time < 0.05) :
    (finish_current_action now s).action_history = s.action_history := by
  rcases hc : s.current_action with _ | ⟨t, d⟩
  · simp [finish_current_action, hc]
  · simp [finish_current_action, hc, not_le.mpr hshort]

/-- C2: when the recorder is not returning and holds a resident unfinished
action, `start_action` finalizes the resident action first — appending it to
the history exactly when its elapsed duration is at least 0.05 s — and only
then installs the new current action, so the resident action is never
silently discarded. -/
theorem C2_start_action_finalizes (s : ActionRecorder) (now : ℚ)
    (t0 d0 action_type direction : String)
    (hret : s.is_returning = false)
    (hcur : s.current_action = some (t0, d0)) :
    start_action now action_type direction s =
      { s with
        action_history := s.action_history ++
          (if now - s.action_start_time ≥ 0.05 then
            [{ type := t0, direction := d0,
               duration := now - s.action_start_time, timestamp := now }]
           else []),
        current_action := some (action_type, direction),
        action_start_time := now } := by
  simp only [start_action, hret, Bool.false_eq_true, if_false,
    finish_current_action, hcur]
  split_ifs with hd
  · rfl
  · simp [hret]

/-- Concrete recorder state used by the C2 witness. -/
def sampleMidAction : ActionRecorder :=
  { action_history := [], is_returning := false, return_action_index := 0,
    current_action := some ("move", "forward"), action_start_time := 1 }

theorem C2_start_action_finalizes_witness :
    sampleMidAction.is_returning = false ∧
    sampleMidAction.current_action = some ("move", "forward") ∧
    start_action 2 "rotate" "left" sampleMidAction =
      { sampleMidAction with
        action_history := sampleMidAction.action_history ++
          (if (2 : ℚ) - sampleMidAction.action_start_time ≥ 0.05 then
            [{ type := "move", direction := "forward",
               duration := (2 : ℚ) - sampleMidAction.action_start_time,
               timestamp := 2 }]
           else []),
        current_action := some ("rotate", "left"),
        action_start_time := 2 } :=
  ⟨rfl, rfl,
   C2_start_action_finalizes sampleMidAction 2 "move" "forward" "rotate" "left"
     rfl rfl⟩

lemma step_durations {s s' : ActionRecorder} (hstep : ActionRecorder.Step s s') :
    (∀ a ∈ s.action_history, (0.05 : ℚ) ≤ a.duration) →
    ∀ a ∈ s'.action_history, (0.05 : ℚ) ≤ a.duration := by
  cases hstep with
  | start now action_type direction s =>
    intro ih a ha
    rw [start_action] at ha
    split_ifs at ha with hret
    · exact ih a ha
    · exact finish_current_action_durations now s ih a ha
  | stop now s =>
    intro ih
    exact finish_current_action_durations now s ih
  | recordStep now action_type direction duration s =>
    intro ih a ha
    rw [record] at ha
    split_ifs at ha with hret hdur
    · exact ih a ha
    · exact ih a ha
    · simp only [List.mem_append, List.mem_singleton] at ha
      rcases ha with ha | rfl
      · exact ih a ha
      · exact not_lt.mp hdur
  | clearStep s =>
    intro ih a ha
    simp [ActionRecorder.clear] at ha
  | startRet now s =>
    intro ih a ha
    simp only [start_returning] at ha
    split_ifs at ha
    · exact finish_current_action_durations now s ih a ha
    · exact finish_current_action_durations now s ih a ha
  | execRet s =>
    intro ih a ha
    rw [execute_return_action] at ha
    rcases hg : get_next_return_action s with _ | ra
    · rw [hg] at ha
      simp [finish_returning, ActionRecorder.clear] at ha
    · rw [hg] at ha
      exact ih a ha
  | advanceIdx s =>
    intro ih
    exact ih
  | finishRet s =>
    intro ih a ha
    simp [finish_returning, ActionRecorder.clear] at ha

/-- C3: the direct `record` path is a no-op for sub-threshold durations, the
`stop_action`/implicit-finalize path leaves the history unchanged when the
elapsed duration is below 0.05 s, and consequently every entry of the history
of every reachable recorder state has duration at least 0.05 s. -/
theorem C3_duration_floor :
    (∀ (now : ℚ) (action_type direction : String) (duration : ℚ)
        (s : ActionRecorder), duration < 0.05 →
        record now action_type direction duration s = s) ∧
    (∀ (now : ℚ) (s : ActionRecorder), now - s.action_start_time < 0.05 →
        (stop_action now s).action_history.length =
          s.action_history.length) ∧
    (∀ s : ActionRecorder, ActionRecorder.Reachable s →
        ∀ a ∈ s.action_history, (0.05 : ℚ) ≤ a.duration) := by
  refine ⟨?_, ?_, ?_⟩
  · intro now action_type direction duration s hdur
    simp [record, hdur]
  · intro now s hshort
    rw [stop_action, finish_current_action_history_length now s hshort]
  · intro s hreach
    induction hreach with
    | init => simp [ActionRecorder.init]
    | step _ hstep ih => exact step_durations hstep ih

theorem C3_duration_floor_witness :
    ((0.04 : ℚ) < 0.05 ∧
      record 9 "move" "forward" 0.04 sampleMidAction = sampleMidAction) ∧
    ((1.02 : ℚ) - sampleMidAction.action_start_time < 0.05 ∧
      (stop_action 1.02 sampleMidAction).action_history.length =
        sampleMidAction.action_history.length) ∧
    (ActionRecorder.Reachable ActionRecorder.init ∧
      ∀ a ∈ ActionRecorder.init.action_history, (0.05 : ℚ) ≤ a.duration) :=
  ⟨⟨by norm_num,
    C3_duration_floor.1 9 "move" "forward" 0.04 sampleMidAction (by norm_num)⟩,
   ⟨by norm_num [sampleMidAction],
    C3_duration_floor.2.1 1.02 sampleMidAction (by norm_num [sampleMidAction])⟩,
   ⟨ActionRecorder.Reachable.init,
    C3_duration_floor.2.2 ActionRecorder.init ActionRecorder.Reachable.init⟩⟩

/-- Core replay lemma: with the cursor at `j - 1` over history `h`, running
the return loop replays the first `j` history entries in reverse order with
reversed directions, ends in the cleared non-returning state, and reports
completion. -/
lemma run_return_spec (h : List RobotAction) (j : Nat) (s : ActionRecorder)
    (hj : j ≤ h.length) (hh : s.action_history = h)
    (hidx : s.return_action_index = (j : Int) - 1) :
    (run_return (j + 1) s).1.map (fun r => (r.type, r.direction, r.duration)) =
      ((h.take j).reverse).map
        (fun a => (a.type, get_reverse_direction a.direction, a.duration)) ∧
    (run_return (j + 1) s).2.1 =
      { action_history := [], is_returning := false,
        return_action_index := -1, current_action := none,
        action_start_time := 0 } ∧
    (run_return (j + 1) s).2.2 = true := by
  induction j generalizing s with
  | zero =>
    have hnone : get_next_return_action s = none := by
      rw [get_next_return_action, if_pos (by rw [hidx]; omega)]
    refine ⟨?_, ?_, ?_⟩ <;>
      simp [run_return, hnone, finish_returning, ActionRecorder.clear, hidx]
  | succ n ih =>
    have hn : n < h.length := by omega
    have hidx' : s.return_action_index = (n : Int) := by rw [hidx]; push_cast; ring
    have hget : get_next_return_action s =
        some { type := h[n].type,
               direction := get_reverse_direction h[n].direction,
               original_direction := h[n].direction,
               duration := h[n].duration,
               index := (n : Int),
               total := h.length } := by
      rw [get_next_return_action, if_neg (by rw [hidx']; omega)]
      rw [hidx', hh]
      simp [List.getElem?_eq_getElem hn]
    have hstep : run_return (n + 1 + 1) s =
        ({ type := h[n].type,
           direction := get_reverse_direction h[n].direction,
           original_direction := h[n].direction,
           duration := h[n].duration,
           index := (n : Int),
           total := h.length } ::
            (run_return (n + 1) (advance_return_index s)).1,
          (run_return (n + 1) (advance_return_index s)).2) := by
      simp only [run_return, hget]
    have hh2 : (advance_return_index s).action_history = h := hh
    have hidx2 : (advance_return_index s).return_action_index = (n : Int) - 1 := by
      simp [advance_return_index, hidx']
    have hadv := ih (advance_return_index s) (by omega) hh2 hidx2
    refine ⟨?_, ?_, ?_⟩
    · rw [hstep]
      simp only [List.map_cons]
      rw [hadv.1, List.take_succ, List.getElem?_eq_getElem hn]
      simp only [Option.toList_some, List.reverse_append,
        List.reverse_singleton, List.singleton_append, List.map_cons]
    · rw [hstep]
      exact hadv.2.1
    · rw [hstep]
      exact hadv.2.2

/-- C1: from a non-returning state with no in-flight action and a nonempty
history of N recorded actions (each at least 0.05 s long), `start_returning`
succeeds, and repeatedly calling `execute_return_action` until it reports
completion replays exactly the N recorded actions in reverse chronological
order, each with the reverse direction of its original (left↔right,
forward↔backward, any other direction unchanged); afterwards the history is
empty and `is_returning` is false. -/
theorem C1_return_replay (now : ℚ) (s0 : ActionRecorder)
    (hne : s0.action_history ≠ [])
    (hdur : ∀ a ∈ s0.action_history, (0.05 : ℚ) ≤ a.duration)
    (hret : s0.is_returning = false)
    (hcur : s0.current_action = none) :
    (start_returning now s0).1 = true ∧
    (run_return (s0.action_history.length + 1)
        (start_returning now s0).2).1.map
        (fun r => (r.type, r.direction, r.duration)) =
      s0.action_history.reverse.map
        (fun a => (a.type, get_reverse_direction a.direction, a.duration)) ∧
    (run_return (s0.action_history.length + 1)
        (start_returning now s0).2).2.1.action_history = [] ∧
    (run_return (s0.action_history.length + 1)
        (start_returning now s0).2).2.1.is_returning = false ∧
    (run_return (s0.action_history.length + 1)
        (start_returning now s0).2).2.2 = true ∧
    (get_reverse_direction "left" = "right" ∧
     get_reverse_direction "right" = "left" ∧
     get_reverse_direction "forward" = "backward" ∧
     get_reverse_direction "backward" = "forward" ∧
     ∀ d, d ≠ "left" → d ≠ "right" → d ≠ "forward" → d ≠ "backward" →
       get_reverse_direction d = d) := by
  have hstop : stop_action now s0 = s0 := by
    simp [stop_action, finish_current_action, hcur]
  have hact : has_actions s0 = true := by
    simp [has_actions, List.length_pos, hne]
  have hsr : start_returning now s0 =
      (true, { s0 with is_returning := true
                     , return_action_index :=
                         (s0.action_history.length : Int) - 1 }) := by
    simp [start_returning, hstop, hact]
  have hh2 : ((start_returning now s0).2).action_history =
      s0.action_history := by rw [hsr]
  have hidx2 : ((start_returning now s0).2).return_action_index =
      (s0.action_history.length : Int) - 1 := by rw [hsr]
  have hmain := run_return_spec s0.action_history s0.action_history.length
    (start_returning now s0).2 le_rfl hh2 hidx2
  refine ⟨by rw [hsr], ?_, ?_, ?_, ?_, rfl, rfl, rfl, rfl, ?_⟩
  · have := hmain.1
    rwa [List.take_length] at this
  · rw [hmain.2.1]
  · rw [hmain.2.1]
  · exact hmain.2.2
  · intro d h1 h2 h3 h4
    simp [get_reverse_direction, h1, h2, h3, h4]

/-- Concrete two-action history used by the C1 witness. -/
def sampleReturnState : ActionRecorder :=
  { action_history :=
      [{ type := "move", direction := "forward", duration := 2, timestamp := 0 },
       { type := "rotate", direction := "left", duration := 1.5, timestamp := 3 }],
    is_returning := false, return_action_index := 0,
    current_action := none, action_start_time := 0 }

theorem C1_return_replay_witness :
    (start_returning 10 sampleReturnState).1 = true ∧
    (run_return (sampleReturnState.action_history.length + 1)
        (start_returning 10 sampleReturnState).2).1.map
        (fun r => (r.type, r.direction, r.duration)) =
      [("rotate", "right", (1.5 : ℚ)), ("move", "backward", (2 : ℚ))] ∧
    (run_return (sampleReturnState.action_history.length + 1)
        (start_returning 10 sampleReturnState).2).2.1.action_history = [] ∧
    (run_return (sampleReturnState.action_history.length + 1)
        (start_returning 10 sampleReturnState).2).2.1.is_returning = false := by
  have h := C1_return_replay 10 sampleReturnState
    (by simp [sampleReturnState])
    (by intro a ha
        simp only [sampleReturnState, List.mem_cons, List.not_mem_nil,
          or_false] at ha
        rcases ha with rfl | rfl <;> norm_num)
    rfl rfl
  refine ⟨h.1, ?_, h.2.2.1, h.2.2.2.1⟩
  rw [h.2.1]
  simp [sampleReturnState, get_reverse_direction]

/-- Total motor-on rotation time of a motor-event trace (the sum of the
rotation pulse widths, excluding pauses and moves). -/
def rotation_pulse_total : List MotorEvent → ℚ
  | [] => 0
  | MotorEvent.turnLeft d :: rest => d + rotation_pulse_total rest
  | MotorEvent.turnRight d :: rest => d + rotation_pulse_total rest
  | MotorEvent.motorPause _ :: rest => rotation_pulse_total rest
  | MotorEvent.forwardCmd _ :: rest => rotation_pulse_total rest
  | MotorEvent.backwardCmd _ :: rest => rotation_pulse_total rest

/-- The durations of the continuous move commands of a motor-event trace. -/
def continuous_move_commands : List MotorEvent → List ℚ
  | [] => []
  | MotorEvent.forwardCmd d :: rest => d :: continuous_move_commands rest
  | MotorEvent.backwardCmd d :: rest => d :: continuous_move_commands rest
  | _ :: rest => continuous_move_commands rest

lemma rotation_pulse_total_append (l1 l2 : List MotorEvent) :
    rotation_pulse_total (l1 ++ l2) =
      rotation_pulse_total l1 + rotation_pulse_total l2 := by
  induction l1 with
  | nil => simp [rotation_pulse_total]
  | cons e rest ih =>
    cases e <;> simp [rotation_pulse_total, ih] <;> ring

lemma continuous_move_commands_append (l1 l2 : List MotorEvent) :
    continuous_move_commands (l1 ++ l2) =
      continuous_move_commands l1 ++ continuous_move_commands l2 := by
  induction l1 with
  | nil => simp [continuous_move_commands]
  | cons e rest ih =>
    cases e <;> simp [continuous_move_commands, ih]

lemma rotation_pulse_total_flatMap (n : Nat) (unit : List MotorEvent) :
    rotation_pulse_total ((List.range n).flatMap (fun _ => unit)) =
      n * rotation_pulse_total unit := by
  induction n with
  | zero => simp [rotation_pulse_total]
  | succ m ih =>
    rw [List.range_succ, List.flatMap_append]
    rw [rotation_pulse_total_append, ih]
    simp [rotation_pulse_total_append]
    ring

lemma continuous_move_commands_flatMap (n : Nat) (unit : List MotorEvent)
    (h : continuous_move_commands unit = []) :
    continuous_move_commands ((List.range n).flatMap (fun _ => unit)) = [] := by
  induction n with
  | zero => simp [continuous_move_commands]
  | succ m ih =>
    rw [List.range_succ, List.flatMap_append]
    rw [continuous_move_commands_append, ih]
    simp [continuous_move_commands_append, h]

/-- Rotate return action of 0.2 s used by the C9 counterexample and witness. -/
def shortRotateReturn : ReturnAction :=
  { type := "rotate", direction := "left", original_direction := "right",
    duration := 0.2, index := 0, total := 1 }

/-- C9 counterexample: replaying a recorded 0.2 s rotation issues
`int(0.2 / 0.15) = 1` pulse of 0.15 s, so the rotation pulses total 0.15 s,
not the original 0.2 s the claim requires. -/
theorem C9_counterexample :
    shortRotateReturn.type = "rotate" ∧
    shortRotateReturn.duration = 0.2 ∧
    rotation_pulse_total (execute_return_motor_events shortRotateReturn) =
      0.15 ∧
    (0.15 : ℚ) ≠ 0.2 := by
  refine ⟨rfl, rfl, ?_, by norm_num⟩
  have hsteps : (Int.floor ((0.2 : ℚ) / ROTATE_STEP_DURATION)).toNat = 1 := by
    norm_num [ROTATE_STEP_DURATION]
  simp only [execute_return_motor_events, shortRotateReturn]
  norm_num [hsteps, rotation_pulse_total, ROTATE_STEP_DURATION]

/-- C9 (amended): `execute_return_action` replays a recorded rotate action as
fixed-size step pulses of ROTATE_STEP_DURATION separated by ROTATE_STEP_PAUSE
whose rotation pulses total ⌊duration / ROTATE_STEP_DURATION⌋ ·
ROTATE_STEP_DURATION — the original duration rounded down to a whole number
of step pulses, not the original duration itself — while a recorded move
action is replayed as exactly one continuous motor command held for exactly
the original duration. -/
theorem C9_replay_shape (ra : ReturnAction) (hd : (0 : ℚ) ≤ ra.duration) :
    (ra.type = "rotate" →
      rotation_pulse_total (execute_return_motor_events ra) =
        ((Int.floor (ra.duration / ROTATE_STEP_DURATION) : ℤ) : ℚ) *
          ROTATE_STEP_DURATION ∧
      continuous_move_commands (execute_return_motor_events ra) = []) ∧
    (ra.type = "move" →
      continuous_move_commands (execute_return_motor_events ra) =
        [ra.duration] ∧
      rotation_pulse_total (execute_return_motor_events ra) = 0) := by
  constructor
  · intro ht
    have hev : execute_return_motor_events ra =
        (List.range
            (Int.floor (ra.duration / ROTATE_STEP_DURATION)).toNat).flatMap
          (fun _ =>
            [(if ra.direction = "left" then
                MotorEvent.turnLeft ROTATE_STEP_DURATION
              else MotorEvent.turnRight ROTATE_STEP_DURATION),
             MotorEvent.motorPause ROTATE_STEP_PAUSE]) := by
      simp [execute_return_motor_events, ht]
    have hfl : (0 : ℤ) ≤ Int.floor (ra.duration / ROTATE_STEP_DURATION) := by
      apply Int.floor_nonneg.mpr
      exact div_nonneg hd (by norm_num [ROTATE_STEP_DURATION])
    constructor
    · rw [hev, rotation_pulse_total_flatMap]
      have hunit : rotation_pulse_total
          [(if ra.direction = "left" then
              MotorEvent.turnLeft ROTATE_STEP_DURATION
            else MotorEvent.turnRight ROTATE_STEP_DURATION),
           MotorEvent.motorPause ROTATE_STEP_PAUSE] = ROTATE_STEP_DURATION := by
        split_ifs <;> simp [rotation_pulse_total]
      rw [hunit]
      have hcast : ((⌊ra.duration / ROTATE_STEP_DURATION⌋.toNat : ℕ) : ℚ) =
          ((⌊ra.duration / ROTATE_STEP_DURATION⌋ : ℤ) : ℚ) := by
        exact_mod_cast Int.toNat_of_nonneg hfl
      rw [hcast]
    · rw [hev]
      apply continuous_move_commands_flatMap
      split_ifs <;> simp [continuous_move_commands]
  · intro ht
    have hev : execute_return_motor_events ra =
        [if ra.direction = "forward" then MotorEvent.forwardCmd ra.duration
         else MotorEvent.backwardCmd ra.duration] := by
      simp [execute_return_motor_events, ht]
    rw [hev]
    split_ifs <;> simp [continuous_move_commands, rotation_pulse_total]

theorem C9_replay_shape_witness :
    (0 : ℚ) ≤ shortRotateReturn.duration ∧
    shortRotateReturn.type = "rotate" ∧
    rotation_pulse_total (execute_return_motor_events shortRotateReturn) =
      ((Int.floor (shortRotateReturn.duration / ROTATE_STEP_DURATION) : ℤ) : ℚ) *
        ROTATE_STEP_DURATION := by
  refine ⟨by norm_num [shortRotateReturn], rfl, ?_⟩
  exact ((C9_replay_shape shortRotateReturn
    (by norm_num [shortRotateReturn])).1 rfl).1
